import Mathlib

/-!
Verification of the season-results ingestion and filtering pipeline of the
F1 dashboard repository (`src/new.py`).

The embedding models the JSON values returned by the Ergast API, the Python
semantics of the dictionary / list / string operations that
`get_season_results` performs on them (including the exceptions those
operations can raise), and the filter engine `apply_filters`.

Modelling notes:
* Python `None` returned by `fetch_data` is modelled by `Option.none` at the
  fetcher level; JSON `null` payloads behave identically (falsy) and are not
  distinguished.
* Machine floats produced by `float(...)` are modelled by exact rationals
  over finite decimal literals (optional sign, digits, optional fractional
  part, optional exponent).  Special values (`nan`, `inf`), underscores and
  rounding are outside the model; no claim exercises them.
* `str.isdigit` and `int(...)` are modelled over ASCII decimal digits, which
  is the alphabet the API uses.
* `pd.to_datetime` (line 107) raises on unparseable dates; it is modelled by
  validating the ISO `YYYY-MM-DD` format the API produces.  The normalized
  date is kept as the validated string, because no downstream operation in
  scope inspects the normalized representation.
* `df.sort_values(['round', 'position'])` (line 108) is a stable sort by
  round then position with NaN (absent position) placed last; it is modelled
  by `List.insertionSort` with the corresponding total preorder.
-/

/-- A JSON value as deserialized into Python objects: strings, lists and
dictionaries.  (The Ergast API encodes all leaves, including numbers such as
`round`, `total`, `position` and `points`, as strings.) -/
inductive Json where
  | str : String → Json
  | arr : List Json → Json
  | obj : List (String × Json) → Json
deriving Repr

mutual

/-- Decidable equality of JSON values. -/
def Json.decEq : (a b : Json) → Decidable (a = b)
  | .str x, .str y =>
    if h : x = y then .isTrue (by rw [h]) else .isFalse (by simp [h])
  | .arr xs, .arr ys =>
    match Json.decEqList xs ys with
    | .isTrue h => .isTrue (by rw [h])
    | .isFalse h => .isFalse (by simp [h])
  | .obj xs, .obj ys =>
    match Json.decEqKVs xs ys with
    | .isTrue h => .isTrue (by rw [h])
    | .isFalse h => .isFalse (by simp [h])
  | .str _, .arr _ => .isFalse (by simp)
  | .str _, .obj _ => .isFalse (by simp)
  | .arr _, .str _ => .isFalse (by simp)
  | .arr _, .obj _ => .isFalse (by simp)
  | .obj _, .str _ => .isFalse (by simp)
  | .obj _, .arr _ => .isFalse (by simp)

/-- Decidable equality of JSON arrays. -/
def Json.decEqList : (a b : List Json) → Decidable (a = b)
  | [], [] => .isTrue rfl
  | x :: xs, y :: ys =>
    match Json.decEq x y, Json.decEqList xs ys with
    | .isTrue h1, .isTrue h2 => .isTrue (by rw [h1, h2])
    | .isFalse h1, _ => .isFalse (by simp [h1])
    | _, .isFalse h2 => .isFalse (by simp [h2])
  | [], _ :: _ => .isFalse (by simp)
  | _ :: _, [] => .isFalse (by simp)

/-- Decidable equality of JSON object entry lists. -/
def Json.decEqKVs : (a b : List (String × Json)) → Decidable (a = b)
  | [], [] => .isTrue rfl
  | (k1, v1) :: xs, (k2, v2) :: ys =>
    if hk : k1 = k2 then
      match Json.decEq v1 v2, Json.decEqKVs xs ys with
      | .isTrue h1, .isTrue h2 => .isTrue (by rw [hk, h1, h2])
      | .isFalse h1, _ => .isFalse (by simp [h1])
      | _, .isFalse h2 => .isFalse (by simp [h2])
    else .isFalse (by simp [hk])
  | [], _ :: _ => .isFalse (by simp)
  | _ :: _, [] => .isFalse (by simp)

end

instance : DecidableEq Json := Json.decEq

/-- The Python exceptions the ingestion code can raise. -/
inductive PyError where
  | keyError : String → PyError
  | typeError : PyError
  | valueError : PyError
  | attributeError : PyError
deriving DecidableEq, Repr

deriving instance DecidableEq for Except

/-- Lookup in a Python dict built from a JSON object: on duplicate keys the
last occurrence wins (as in `json.loads`). -/
def lookupLast (kvs : List (String × Json)) (k : String) : Option Json :=
  match kvs with
  | [] => none
  | (k', v) :: rest =>
    match lookupLast rest k with
    | some v' => some v'
    | none => if k' = k then some v else none

/-- Python truthiness of a JSON value (`if not data`). -/
def Json.truthy : Json → Bool
  | .str s => !s.isEmpty
  | .arr l => !l.isEmpty
  | .obj kvs => !kvs.isEmpty

/-- Does the character list `needle` occur contiguously inside `hay`?
(Python `sub in str`.) -/
def listInfixOf (needle hay : List Char) : Bool :=
  hay.tails.any (fun t => needle.isPrefixOf t)

/-- Python `key in value` for a string key: dict key membership, list
membership, or substring test.  Never raises for these types. -/
def pyContains (j : Json) (k : String) : Bool :=
  match j with
  | .obj kvs => (kvs.map Prod.fst).contains k
  | .arr l => l.contains (.str k)
  | .str s => listInfixOf k.toList s.toList

/-- Python subscription `value[key]` with a string key: dict lookup
(`KeyError` when absent), `TypeError` on lists and strings. -/
def Json.index (j : Json) (k : String) : Except PyError Json :=
  match j with
  | .obj kvs =>
    match lookupLast kvs k with
    | some v => .ok v
    | none => .error (.keyError k)
  | _ => .error .typeError

/-- Python `value.get(key, default)`: only dicts have `.get`
(`AttributeError` otherwise). -/
def pyGet (j : Json) (k : String) (dflt : Json) : Except PyError Json :=
  match j with
  | .obj kvs => .ok ((lookupLast kvs k).getD dflt)
  | _ => .error .attributeError

/-- Python iteration `for x in value`: list elements, dict keys (in listed
order), or the characters of a string. -/
def pyIter : Json → List Json
  | .arr l => l
  | .obj kvs => kvs.map (fun kv => .str kv.1)
  | .str s => s.toList.map (fun c => .str ⟨[c]⟩)

/-- Python `repr` of a JSON-shaped value (used by f-string interpolation of
non-string values; escape sequences inside strings are not modelled). -/
def pyRepr : Json → String
  | .str s => "'" ++ s ++ "'"
  | .arr l =>
    "[" ++ String.intercalate ", " (l.attach.map (fun x => pyRepr x.1)) ++ "]"
  | .obj kvs =>
    "\x7b" ++
      String.intercalate ", "
        (kvs.attach.map (fun kv => "'" ++ kv.1.1 ++ "': " ++ pyRepr kv.1.2)) ++
      "\x7d"
decreasing_by
  all_goals simp_wf
  · have := List.sizeOf_lt_of_mem x.2
    omega
  · obtain ⟨⟨a', b'⟩, hm⟩ := kv
    have h := List.sizeOf_lt_of_mem hm
    simp only [Prod.mk.sizeOf_spec] at h
    simp only []
    omega

/-- Python `str()` / f-string interpolation of a JSON-shaped value. -/
def pyStr : Json → String
  | .str s => s
  | j => pyRepr j

/-- Python `str.isdigit` over the ASCII alphabet: non-empty and every
character a decimal digit. -/
def pyIsDigit (s : String) : Bool :=
  !s.toList.isEmpty && s.toList.all Char.isDigit

/-- Numeric value of a list of decimal digit characters. -/
def digitsVal (cs : List Char) : Nat :=
  cs.foldl (fun a c => 10 * a + (c.toNat - 48)) 0

/-- Numeric value of a decimal digit string (`int(s)` for `s.isdigit()`). -/
def digitsToNat (s : String) : Nat :=
  digitsVal s.toList

/-- Strip leading and trailing whitespace from a character list. -/
def trimWs (cs : List Char) : List Char :=
  ((cs.dropWhile Char.isWhitespace).reverse.dropWhile Char.isWhitespace).reverse

/-- Python `int(s)` on a string: optional surrounding whitespace, optional
sign, one or more decimal digits (underscores are outside the model). -/
def pyIntStr? (s : String) : Option Int :=
  let cs := trimWs s.toList
  let (sign, digits) : Int × List Char :=
    match cs with
    | '-' :: rest => (-1, rest)
    | '+' :: rest => (1, rest)
    | _ => (1, cs)
  if !digits.isEmpty && digits.all Char.isDigit then
    some (sign * (digitsVal digits : Int))
  else none

/-- Python `int(value)`: parse strings, `TypeError` on lists and dicts. -/
def pyIntJson : Json → Except PyError Int
  | .str s =>
    match pyIntStr? s with
    | some n => .ok n
    | none => .error .valueError
  | _ => .error .typeError

/-- Split off the leading run of decimal digits. -/
def spanDigits (cs : List Char) : List Char × List Char :=
  (cs.takeWhile Char.isDigit, cs.dropWhile Char.isDigit)

/-- Python `float(s)` on a string, restricted to finite decimal literals:
optional surrounding whitespace, optional sign, digits with an optional
fractional part, and an optional decimal exponent.  `none` models
`ValueError`. -/
def parsePyFloat? (s : String) : Option ℚ :=
  let cs := trimWs s.toList
  if cs.isEmpty then none
  else
    let (sign, body) : Int × List Char :=
      match cs with
      | '-' :: rest => (-1, rest)
      | '+' :: rest => (1, rest)
      | _ => (1, cs)
    let (ip, r1) := spanDigits body
    let (fp, r2) : List Char × List Char :=
      match r1 with
      | '.' :: rest => spanDigits rest
      | _ => ([], r1)
    if ip.isEmpty && fp.isEmpty then none
    else
      let num : Int :=
        sign * ((digitsVal ip * 10 ^ fp.length + digitsVal fp : Nat) : Int)
      let den : Nat := 10 ^ fp.length
      match r2 with
      | [] => some (mkRat num den)
      | e :: rest =>
        if e = 'e' || e = 'E' then
          let (eneg, ed) : Bool × List Char :=
            match rest with
            | '-' :: r => (true, r)
            | '+' :: r => (false, r)
            | _ => (false, rest)
          if !ed.isEmpty && ed.all Char.isDigit then
            some (if eneg then mkRat num (den * 10 ^ digitsVal ed)
                  else mkRat (num * 10 ^ digitsVal ed) den)
          else none
        else none

/-- Days of a month in the Gregorian calendar. -/
def daysInMonth (y m : Nat) : Nat :=
  if m = 2 then
    if (y % 4 = 0 && y % 100 != 0) || y % 400 = 0 then 29 else 28
  else if m = 4 || m = 6 || m = 9 || m = 11 then 30
  else 31

/-- Does `pd.to_datetime` accept this value?  Modelled for the ISO
`YYYY-MM-DD` strings the API produces; everything else raises. -/
def isoDate : Json → Bool
  | .str s =>
    match s.toList with
    | [y1, y2, y3, y4, '-', m1, m2, '-', d1, d2] =>
      [y1, y2, y3, y4, m1, m2, d1, d2].all Char.isDigit &&
        (let y := digitsVal [y1, y2, y3, y4]
         let m := digitsVal [m1, m2]
         let d := digitsVal [d1, d2]
         1 ≤ m && m ≤ 12 && 1 ≤ d && d ≤ daysInMonth y m)
    | _ => false
  | _ => false

/-- One flattened race-result row, as appended by `get_season_results`
(lines 86–95).  `race`, `date`, `constructor` and `status` store whatever
JSON value the response carried; `driver` is the interpolated f-string. -/
structure Row where
  round : Int
  race : Json
  date : Json
  driver : String
  constructor : Json
  position : Option Nat
  points : ℚ
  status : Json
deriving DecidableEq, Repr

/-- Lines 78–79: `position = result.get('position', 'DNF')`;
`int(position) if position.isdigit() else None`.  Calling `.get` on a
non-dict, or `.isdigit` on a non-string, raises `AttributeError`. -/
def extractPosition (result : Json) : Except PyError (Option Nat) :=
  match pyGet result "position" (.str "DNF") with
  | .error e => .error e
  | .ok (.str s) => .ok (if pyIsDigit s then some (digitsToNat s) else none)
  | .ok _ => .error .attributeError

/-- Lines 81–84: `points = float(result.get('points', 0))` with
`ValueError`/`TypeError` caught and defaulted to `0`.  The absent-key
default is the integer `0`, whose `float` is `0`. -/
def extractPoints (result : Json) : Except PyError ℚ :=
  match result with
  | .obj kvs =>
    .ok (match lookupLast kvs "points" with
      | none => 0
      | some (.str s) =>
        match parsePyFloat? s with
        | some q => q
        | none => 0
      | some _ => 0)
  | _ => .error .attributeError

/-- Lines 77–95: build the row appended for one entry of `race['Results']`,
evaluating the exception-raising operations in source order. -/
def buildResultRow (roundNum : Int) (raceName raceDate : Json) (result : Json) :
    Except PyError Row :=
  match extractPosition result with
  | .error e => .error e
  | .ok position =>
    match extractPoints result with
    | .error e => .error e
    | .ok points =>
      match result.index "Driver" with
      | .error e => .error e
      | .ok driverJ =>
        match driverJ.index "givenName" with
        | .error e => .error e
        | .ok given =>
          match driverJ.index "familyName" with
          | .error e => .error e
          | .ok family =>
            match result.index "Constructor" with
            | .error e => .error e
            | .ok consJ =>
              match consJ.index "name" with
              | .error e => .error e
              | .ok consName =>
                match pyGet result "status" (.str "") with
                | .error e => .error e
                | .ok status =>
                  .ok { round := roundNum, race := raceName, date := raceDate,
                        driver := pyStr given ++ " " ++ pyStr family,
                        constructor := consName, position := position,
                        points := points, status := status }

/-- The inner loop of lines 77–95 over `race['Results']`, accumulating rows
in order and propagating the first exception. -/
def resultsRows (roundNum : Int) (raceName raceDate : Json) :
    List Json → Except PyError (List Row)
  | [] => .ok []
  | result :: rest =>
    match buildResultRow roundNum raceName raceDate result with
    | .error e => .error e
    | .ok row =>
      match resultsRows roundNum raceName raceDate rest with
      | .error e => .error e
      | .ok more => .ok (row :: more)

/-- Lines 72–95: process one entry of the `Races` list: read `raceName`,
`int(round)`, `date`, then flatten `race['Results']`. -/
def processRace (race : Json) : Except PyError (List Row) :=
  match race.index "raceName" with
  | .error e => .error e
  | .ok raceName =>
    match race.index "round" with
    | .error e => .error e
    | .ok roundJ =>
      match pyIntJson roundJ with
      | .error e => .error e
      | .ok roundNum =>
        match race.index "date" with
        | .error e => .error e
        | .ok raceDate =>
          match race.index "Results" with
          | .error e => .error e
          | .ok results => resultsRows roundNum raceName raceDate (pyIter results)

/-- The outer `for race in races` loop, concatenating each race's rows. -/
def racesRows : List Json → Except PyError (List Row)
  | [] => .ok []
  | race :: rest =>
    match processRace race with
    | .error e => .error e
    | .ok rs =>
      match racesRows rest with
      | .error e => .error e
      | .ok more => .ok (rs ++ more)

/-- One iteration of the `while True` loop on a fetched response
(lines 65–100, minus the fetch itself and the `offset`/`total` break):
`.ok none` means the loop breaks with the accumulator unchanged (falsy
response, missing `MRData` or `RaceTable`, or zero races); `.ok (some
(rows, total))` carries the rows appended by this page and the page's
declared `int(total)`; `.error` is a propagating Python exception. -/
def processPage (data : Json) : Except PyError (Option (List Row × Int)) :=
  if data.truthy = false then .ok none
  else if pyContains data "MRData" = false then .ok none
  else
    match data.index "MRData" with
    | .error e => .error e
    | .ok mrdata =>
      if pyContains mrdata "RaceTable" = false then .ok none
      else
        match mrdata.index "RaceTable" with
        | .error e => .error e
        | .ok raceTable =>
          match raceTable.index "Races" with
          | .error e => .error e
          | .ok races =>
            if races.truthy = false then .ok none
            else
              match racesRows (pyIter races) with
              | .error e => .error e
              | .ok rows =>
                match mrdata.index "total" with
                | .error e => .error e
                | .ok totalJ =>
                  match pyIntJson totalJ with
                  | .error e => .error e
                  | .ok total => .ok (some (rows, total))

/-- The `while True` pagination loop (lines 63–100).  `fetch` maps an offset
to the fetcher's response (`none` models `fetch_data` returning `None`);
`limit` is fixed at 100 by the source.  The result pairs the loop outcome
with the number of fetch calls issued; `none` means the supplied fuel was
exhausted, i.e. the Python loop would still be running. -/
def seasonLoop (fetch : Nat → Option Json) :
    Nat → Nat → List Row → Option (Except PyError (List Row) × Nat)
  | 0, _, _ => none
  | fuel + 1, offset, acc =>
    match fetch offset with
    | none => some (.ok acc, 1)
    | some data =>
      match processPage data with
      | .error e => some (.error e, 1)
      | .ok none => some (.ok acc, 1)
      | .ok (some (rows, total)) =>
        if ((offset : Int) + 100) ≥ total then some (.ok (acc ++ rows), 1)
        else
          match seasonLoop fetch fuel (offset + 100) (acc ++ rows) with
          | none => none
          | some (res, n) => some (res, n + 1)

/-- Sort-key comparison on positions: absent (`None` → NaN) sorts after
every present position. -/
def posLE : Option Nat → Option Nat → Bool
  | some m, some n => m ≤ n
  | some _, none => true
  | none, some _ => false
  | none, none => true

/-- The total preorder `sort_values(['round', 'position'])` sorts by:
round ascending, then position ascending with absent positions last. -/
def rowLE (a b : Row) : Bool :=
  a.round < b.round || (a.round == b.round && posLE a.position b.position)

/-- Line 108: stable sort of the accumulated rows by round then position. -/
def sortRows (l : List Row) : List Row :=
  List.insertionSort (fun a b => rowLE a b = true) l

/-- `get_season_results` (lines 57–108) for a fixed year, with the fetcher's
responses supplied as a function of the offset.  Returns `none` when `fuel`
iterations were not enough (the Python loop is still running), otherwise the
normal result or the propagating exception. -/
def get_season_results (fetch : Nat → Option Json) (fuel : Nat) :
    Option (Except PyError (List Row)) :=
  match seasonLoop fetch fuel 0 [] with
  | none => none
  | some (.error e, _) => some (.error e)
  | some (.ok allResults, _) =>
    if allResults.isEmpty then some (.ok [])
    else if allResults.all (fun r => isoDate r.date) then
      some (.ok (sortRows allResults))
    else some (.error .valueError)

/-- The number of fetch calls `get_season_results` issues. -/
def seasonFetchCalls (fetch : Nat → Option Json) (fuel : Nat) : Option Nat :=
  (seasonLoop fetch fuel 0 []).map (fun p => p.2)

/-- The rows contributed by the first `k` successfully processed pages
starting at `offset` (empty contribution for a failing or breaking page). -/
def pagesRows (fetch : Nat → Option Json) : Nat → Nat → List Row
  | _, 0 => []
  | offset, k + 1 =>
    (match fetch offset with
     | some d =>
       match processPage d with
       | .ok (some (rows, _)) => rows
       | _ => []
     | none => []) ++ pagesRows fetch (offset + 100) k

/-- The `filters` dictionary consumed by `apply_filters` (lines 435–460):
each of the four keys it consults is independently present or absent, with
the value types `create_sidebar` produces (slider pairs and multiselect
lists).  Keys the function never reads are irrelevant and not modelled. -/
structure Filters where
  points_range : Option (ℚ × ℚ)
  selected_races : Option (List Json)
  position_range : Option (Int × Int)
  selected_constructors : Option (List Json)
deriving DecidableEq, Repr

/-- `apply_filters` (lines 435–460): four successive restrictions of the
row list.  `between` is inclusive at both ends; the race and constructor
filters are skipped when the key is absent or the selection list is falsy
(empty); the position filter, whenever its key is present, requires a
present (`notna`) position inside the range. -/
def apply_filters (df : List Row) (filters : Filters) : List Row :=
  let f1 :=
    match filters.points_range with
    | some (min_points, max_points) =>
      df.filter (fun r => min_points ≤ r.points && r.points ≤ max_points)
    | none => df
  let f2 :=
    match filters.selected_races with
    | some sel =>
      if sel.isEmpty then f1 else f1.filter (fun r => decide (r.race ∈ sel))
    | none => f1
  let f3 :=
    match filters.position_range with
    | some (min_pos, max_pos) =>
      f2.filter (fun r =>
        match r.position with
        | some p => min_pos ≤ (p : Int) && (p : Int) ≤ max_pos
        | none => false)
    | none => f2
  let f4 :=
    match filters.selected_constructors with
    | some sel =>
      if sel.isEmpty then f3 else f3.filter (fun r => decide (r.constructor ∈ sel))
    | none => f3
  f4

/-- The conjunction of the four per-row conditions of `apply_filters`, with
an absent key contributing `true`. -/
def keeps (filters : Filters) (r : Row) : Bool :=
  ((match filters.points_range with
    | some (min_points, max_points) =>
      min_points ≤ r.points && r.points ≤ max_points
    | none => true)
  && (match filters.selected_races with
      | some sel => if sel.isEmpty then true else decide (r.race ∈ sel)
      | none => true)
  && (match filters.position_range with
      | some (min_pos, max_pos) =>
        match r.position with
        | some p => min_pos ≤ (p : Int) && (p : Int) ≤ max_pos
        | none => false
      | none => true))
  && (match filters.selected_constructors with
      | some sel => if sel.isEmpty then true else decide (r.constructor ∈ sel)
      | none => true)

/-- The retention predicate as the specification words it (claim C2): all
criteria hold simultaneously — points within the inclusive range; if the
race selection is non-empty the race is a member; the position is present
AND within the inclusive range; if the constructor selection is non-empty
the constructor is a member. -/
def specRetains (selRaces selCons : Option (List Json)) (pmin pmax : ℚ)
    (qmin qmax : Int) (r : Row) : Bool :=
  ((pmin ≤ r.points && r.points ≤ pmax)
  && (match selRaces with
      | some (x :: xs) => decide (r.race ∈ x :: xs)
      | _ => true)
  && (r.position.isSome &&
      match r.position with
      | some p => qmin ≤ (p : Int) && (p : Int) ≤ qmax
      | none => true))
  && (match selCons with
      | some (x :: xs) => decide (r.constructor ∈ x :: xs)
      | _ => true)

/-- The ordering claimed for the returned rows (claim C7): primarily round
ascending, secondarily position ascending, rows with absent position after
all rows with a present position for the same round. -/
def claimOrder (a b : Row) : Prop :=
  a.round < b.round ∨
    (a.round = b.round ∧
      (b.position = none ∨
        ∃ pa pb, a.position = some pa ∧ b.position = some pb ∧ pa ≤ pb))

/-- Criteria pairs that differ in exactly one dimension, the first narrower
than the second: a numeric range contained in the other, or a non-empty
selection list contained in the other (claim C9 as amended; an empty
selection list means "no restriction" in the source and is excluded). -/
def NarrowsOne (f1 f2 : Filters) : Prop :=
  (∃ a b c d, f1.points_range = some (a, b) ∧ f2.points_range = some (c, d) ∧
    c ≤ a ∧ b ≤ d ∧ f1.selected_races = f2.selected_races ∧
    f1.position_range = f2.position_range ∧
    f1.selected_constructors = f2.selected_constructors) ∨
  (∃ a b c d, f1.position_range = some (a, b) ∧ f2.position_range = some (c, d) ∧
    c ≤ a ∧ b ≤ d ∧ f1.selected_races = f2.selected_races ∧
    f1.points_range = f2.points_range ∧
    f1.selected_constructors = f2.selected_constructors) ∨
  (∃ l1 l2, f1.selected_races = some l1 ∧ f2.selected_races = some l2 ∧
    l1 ≠ [] ∧ (∀ x ∈ l1, x ∈ l2) ∧ f1.points_range = f2.points_range ∧
    f1.position_range = f2.position_range ∧
    f1.selected_constructors = f2.selected_constructors) ∨
  (∃ l1 l2, f1.selected_constructors = some l1 ∧
    f2.selected_constructors = some l2 ∧
    l1 ≠ [] ∧ (∀ x ∈ l1, x ∈ l2) ∧ f1.points_range = f2.points_range ∧
    f1.position_range = f2.position_range ∧
    f1.selected_races = f2.selected_races)

/-- A result entry whose fields `buildResultRow` reads all have shapes that
raise no exception: `position` absent or a string, `Driver` a dict with both
name parts, `Constructor` a dict with a name. -/
def wellShapedResult (result : Json) : Bool :=
  match result with
  | .obj kvs =>
    (match lookupLast kvs "position" with
     | none => true
     | some (.str _) => true
     | some _ => false)
    && (match lookupLast kvs "Driver" with
        | some (.obj dkvs) =>
          (lookupLast dkvs "givenName").isSome &&
            (lookupLast dkvs "familyName").isSome
        | _ => false)
    && (match lookupLast kvs "Constructor" with
        | some (.obj ckvs) => (lookupLast ckvs "name").isSome
        | _ => false)
  | _ => false

/-- A race entry whose fields `processRace` reads raise no exception and
whose date survives `pd.to_datetime`. -/
def wellShapedRace (race : Json) : Bool :=
  match race with
  | .obj kvs =>
    (lookupLast kvs "raceName").isSome
    && (match lookupLast kvs "round" with
        | some (.str s) => (pyIntStr? s).isSome
        | _ => false)
    && (match lookupLast kvs "date" with
        | some d => isoDate d
        | none => false)
    && (match lookupLast kvs "Results" with
        | some results => (pyIter results).all wellShapedResult
        | none => false)
  | _ => false

/-- A page on which the loop body raises no exception and processes the
page: `MRData` a dict holding a `RaceTable` dict with a `Races` entry whose
iterates are well-shaped races, and a parseable `total`. -/
def wellShapedPage (d : Json) : Bool :=
  match d with
  | .obj kvs =>
    match lookupLast kvs "MRData" with
    | some (.obj mkvs) =>
      (match lookupLast mkvs "RaceTable" with
       | some (.obj rtkvs) =>
         match lookupLast rtkvs "Races" with
         | some races => (pyIter races).all wellShapedRace
         | none => false
       | _ => false)
      && (match lookupLast mkvs "total" with
          | some (.str s) => (pyIntStr? s).isSome
          | _ => false)
    | _ => false
  | _ => false

/-- A response on which the guard of line 65 breaks the loop: falsy, or no
`MRData` key, or its `MRData` dict has no `RaceTable` key. -/
def guardBreaks (d : Json) : Bool :=
  !d.truthy || !pyContains d "MRData" ||
    (match d with
     | .obj kvs =>
       match lookupLast kvs "MRData" with
       | some mr => !pyContains mr "RaceTable"
       | none => false
     | _ => false)

/-- A response the loop handles without raising: either the guard breaks
pagination or the page is fully well-shaped. -/
def goodResp (d : Json) : Bool :=
  guardBreaks d || wellShapedPage d

/-- A response whose `RaceTable` is present but lacks the `Races` key:
line 68 raises `KeyError('Races')` on it. -/
def pageNoRaces : Json :=
  .obj [("MRData", .obj [("RaceTable", .obj [("season", .str "2023")])])]

/-- A well-shaped single-race, single-result page declaring total 1. -/
def pageOneResult : Json :=
  .obj [("MRData", .obj [
    ("RaceTable", .obj [("Races", .arr [
      .obj [("raceName", .str "Bahrain Grand Prix"), ("round", .str "1"),
            ("date", .str "2023-03-05"),
            ("Results", .arr [
              .obj [("position", .str "1"), ("points", .str "25"),
                    ("Driver", .obj [("givenName", .str "Max"),
                                     ("familyName", .str "Verstappen")]),
                    ("Constructor", .obj [("name", .str "Red Bull")]),
                    ("status", .str "Finished")]])]])]),
    ("total", .str "1")])]

/-- The row `pageOneResult` flattens to. -/
def rowOneResult : Row :=
  { round := 1, race := .str "Bahrain Grand Prix", date := .str "2023-03-05",
    driver := "Max Verstappen", constructor := .str "Red Bull",
    position := some 1, points := 25, status := .str "Finished" }

/-- An empty season: zero races, declared total 0. -/
def pageEmptySeason : Json :=
  .obj [("MRData", .obj [("RaceTable", .obj [("Races", .arr [])]),
                         ("total", .str "0")])]

/-- A page with one race that has an empty result list, declaring total 1. -/
def pageNoResults : Json :=
  .obj [("MRData", .obj [
    ("RaceTable", .obj [("Races", .arr [
      .obj [("raceName", .str "R"), ("round", .str "1"),
            ("date", .str "2023-03-05"), ("Results", .arr [])]])]),
    ("total", .str "1")])]

/-- Like `pageOneResult` but declaring total 500, so pagination continues. -/
def pageC4first : Json :=
  .obj [("MRData", .obj [
    ("RaceTable", .obj [("Races", .arr [
      .obj [("raceName", .str "Bahrain Grand Prix"), ("round", .str "1"),
            ("date", .str "2023-03-05"),
            ("Results", .arr [
              .obj [("position", .str "1"), ("points", .str "25"),
                    ("Driver", .obj [("givenName", .str "Max"),
                                     ("familyName", .str "Verstappen")]),
                    ("Constructor", .obj [("name", .str "Red Bull")]),
                    ("status", .str "Finished")]])]])]),
    ("total", .str "500")])]

/-- A rowless page (one race, empty `Results`) declaring total 500. -/
def pageC4second : Json :=
  .obj [("MRData", .obj [
    ("RaceTable", .obj [("Races", .arr [
      .obj [("raceName", .str "Jeddah"), ("round", .str "2"),
            ("date", .str "2023-03-19"), ("Results", .arr [])]])]),
    ("total", .str "500")])]

/-- Fetcher for claim C4's witness: two good pages, then a transport
failure. -/
def fetchC4 : Nat → Option Json := fun off =>
  if off = 0 then some pageC4first
  else if off = 100 then some pageC4second
  else none

/-- A page with one race holding a DNF result and a fifth place, total 2. -/
def pageTwoResults : Json :=
  .obj [("MRData", .obj [
    ("RaceTable", .obj [("Races", .arr [
      .obj [("raceName", .str "R"), ("round", .str "1"),
            ("date", .str "2023-03-05"),
            ("Results", .arr [
              .obj [("position", .str "DNF"), ("points", .str "0"),
                    ("Driver", .obj [("givenName", .str "A"),
                                     ("familyName", .str "B")]),
                    ("Constructor", .obj [("name", .str "T")]),
                    ("status", .str "Accident")],
              .obj [("position", .str "5"), ("points", .str "10"),
                    ("Driver", .obj [("givenName", .str "C"),
                                     ("familyName", .str "D")]),
                    ("Constructor", .obj [("name", .str "U")]),
                    ("status", .str "Finished")]])]])]),
    ("total", .str "2")])]

/-- The DNF row of `pageTwoResults`. -/
def rowDnf : Row :=
  { round := 1, race := .str "R", date := .str "2023-03-05", driver := "A B",
    constructor := .str "T", position := none, points := 0,
    status := .str "Accident" }

/-- The fifth-place row of `pageTwoResults`. -/
def rowFifth : Row :=
  { round := 1, race := .str "R", date := .str "2023-03-05", driver := "C D",
    constructor := .str "U", position := some 5, points := 10,
    status := .str "Finished" }

/-- A finished row used by the filter claims. -/
def rowRaceA : Row :=
  { round := 1, race := .str "A", date := .str "2023-03-05", driver := "D X",
    constructor := .str "T", position := some 1, points := 10,
    status := .str "Finished" }

/-- A DNF row (absent position) used by the filter claims. -/
def rowRaceANoPos : Row :=
  { round := 1, race := .str "A", date := .str "2023-03-05", driver := "E Y",
    constructor := .str "T", position := none, points := 2,
    status := .str "Accident" }

/-- A result entry whose position field is the given raw string. -/
def mkPosResult (s : String) : Json :=
  .obj [("position", .str s), ("points", .str "10"),
        ("Driver", .obj [("givenName", .str "G"), ("familyName", .str "F")]),
        ("Constructor", .obj [("name", .str "C")]),
        ("status", .str "Finished")]

/-- A result entry whose points field is the given raw string. -/
def mkPtsResult (s : String) : Json :=
  .obj [("position", .str "1"), ("points", .str s),
        ("Driver", .obj [("givenName", .str "G"), ("familyName", .str "F")]),
        ("Constructor", .obj [("name", .str "C")]),
        ("status", .str "Finished")]

/-- A result entry with no points key at all. -/
def mkNoPtsResult : Json :=
  .obj [("position", .str "1"),
        ("Driver", .obj [("givenName", .str "G"), ("familyName", .str "F")]),
        ("Constructor", .obj [("name", .str "C")]),
        ("status", .str "Finished")]

lemma apply_filters_eq_filter (df : List Row) (f : Filters) :
    apply_filters df f = df.filter (keeps f) := by
  obtain ⟨pr, sr, posr, sc⟩ := f
  show apply_filters df ⟨pr, sr, posr, sc⟩ =
    df.filter (fun r => keeps ⟨pr, sr, posr, sc⟩ r)
  rcases pr with _ | ⟨pmin, pmax⟩ <;>
    rcases sr with _ | (_ | ⟨x, xs⟩) <;>
    rcases posr with _ | ⟨qmin, qmax⟩ <;>
    rcases sc with _ | (_ | ⟨y, ys⟩) <;>
    simp [apply_filters, keeps, List.filter_filter, List.filter_true,
      Bool.and_assoc, Bool.and_comm, Bool.and_left_comm]

lemma keeps_mono_of_narrows {f1 f2 : Filters} (h : NarrowsOne f1 f2) :
    ∀ r, keeps f1 r = true → keeps f2 r = true := by
  intro r hr
  rcases h with ⟨a, b, c, d, h1, h2, hca, hbd, hse, hpo, hsc⟩ |
    ⟨a, b, c, d, h1, h2, hca, hbd, hse, hpp, hsc⟩ |
    ⟨l1, l2, h1, h2, hne, hsub, hpp, hpo, hsc⟩ |
    ⟨l1, l2, h1, h2, hne, hsub, hpp, hpo, hse⟩
  · simp only [keeps, h1, hse, hpo, hsc, Bool.and_eq_true, decide_eq_true_eq] at hr
    simp only [keeps, h2, Bool.and_eq_true, decide_eq_true_eq]
    exact ⟨⟨⟨⟨le_trans hca hr.1.1.1.1, le_trans hr.1.1.1.2 hbd⟩, hr.1.1.2⟩,
      hr.1.2⟩, hr.2⟩
  · simp only [keeps, h1, hse, hpp, hsc, Bool.and_eq_true, decide_eq_true_eq] at hr
    simp only [keeps, h2, Bool.and_eq_true, decide_eq_true_eq]
    refine ⟨⟨⟨hr.1.1.1, hr.1.1.2⟩, ?_⟩, hr.2⟩
    have hp := hr.1.2
    rcases hq : r.position with _ | p
    · rw [hq] at hp
      exact absurd hp (by simp)
    · rw [hq] at hp
      simp only [Bool.and_eq_true, decide_eq_true_eq] at hp ⊢
      exact ⟨le_trans hca hp.1, le_trans hp.2 hbd⟩
  · obtain ⟨x, xs, rfl⟩ : ∃ y ys, l1 = y :: ys := by
      rcases l1 with _ | ⟨y, ys⟩
      · exact absurd rfl hne
      · exact ⟨y, ys, rfl⟩
    simp only [keeps, h1, hpp, hpo, hsc, List.isEmpty_cons, Bool.and_eq_true,
      decide_eq_true_eq, if_false, Bool.false_eq_true] at hr
    simp only [keeps, h2, Bool.and_eq_true, decide_eq_true_eq]
    refine ⟨⟨⟨hr.1.1.1, ?_⟩, hr.1.2⟩, hr.2⟩
    by_cases hl2 : l2.isEmpty
    · simp [hl2]
    · simp only [hl2, Bool.false_eq_true, if_false, decide_eq_true_eq]
      exact hsub _ hr.1.1.2
  · obtain ⟨x, xs, rfl⟩ : ∃ y ys, l1 = y :: ys := by
      rcases l1 with _ | ⟨y, ys⟩
      · exact absurd rfl hne
      · exact ⟨y, ys, rfl⟩
    simp only [keeps, h1, hpp, hpo, hse, List.isEmpty_cons, Bool.and_eq_true,
      decide_eq_true_eq, if_false, Bool.false_eq_true] at hr
    simp only [keeps, h2, Bool.and_eq_true, decide_eq_true_eq]
    refine ⟨⟨⟨hr.1.1.1, hr.1.1.2⟩, hr.1.2⟩, ?_⟩
    by_cases hl2 : l2.isEmpty
    · simp [hl2]
    · simp only [hl2, Bool.false_eq_true, if_false, decide_eq_true_eq]
      exact hsub _ hr.2

/-- Claim C2: with the two range keys present, `apply_filters` retains a
row if and only if all criteria hold simultaneously — points within the
inclusive points range; membership in a non-empty race selection (an empty
selection is no restriction); the position present AND within the inclusive
position range (so rows with absent position are always excluded, even for
the maximal range); and membership in a non-empty constructor selection. -/
theorem apply_filters_retains_iff (df : List Row) (f : Filters)
    (pmin pmax : ℚ) (qmin qmax : Int)
    (h1 : f.points_range = some (pmin, pmax))
    (h2 : f.position_range = some (qmin, qmax)) :
    apply_filters df f =
      df.filter (specRetains f.selected_races f.selected_constructors
        pmin pmax qmin qmax) := by
  rw [apply_filters_eq_filter]
  refine List.filter_congr ?_
  intro r _
  obtain ⟨pr, sr, posr, sc⟩ := f
  simp only at h1 h2
  subst h1
  subst h2
  rcases sr with _ | (_ | ⟨x, xs⟩) <;>
    rcases sc with _ | (_ | ⟨y, ys⟩) <;>
    rcases hp : r.position with _ | p <;>
    simp [keeps, specRetains, hp, Bool.and_assoc, Bool.and_comm,
      Bool.and_left_comm]

/-- Witness for claim C2 at a concrete filter set and row list containing a
row with absent position. -/
theorem apply_filters_retains_iff_witness :
    apply_filters [rowRaceA, rowRaceANoPos]
        ⟨some (0, 400), some [Json.str "A"], some (1, 20), none⟩ =
      [rowRaceA, rowRaceANoPos].filter
        (specRetains (some [Json.str "A"]) none 0 400 1 20) :=
  apply_filters_retains_iff [rowRaceA, rowRaceANoPos]
    ⟨some (0, 400), some [Json.str "A"], some (1, 20), none⟩
    0 400 1 20 rfl rfl

/-- Claim C8: `apply_filters` is idempotent — filtering twice with the same
criteria equals filtering once. -/
theorem apply_filters_idempotent (df : List Row) (f : Filters) :
    apply_filters (apply_filters df f) f = apply_filters df f := by
  simp [apply_filters_eq_filter, List.filter_filter, Bool.and_self]

/-- Claim C9 (as amended): narrowing a single dimension of the criteria —
shrinking a numeric range, or shrinking a non-empty selection list — never
increases the size of the filtered result. -/
theorem apply_filters_narrow_mono (df : List Row) (f1 f2 : Filters)
    (h : NarrowsOne f1 f2) :
    (apply_filters df f1).length ≤ (apply_filters df f2).length := by
  rw [apply_filters_eq_filter, apply_filters_eq_filter]
  exact (List.monotone_filter_right df
    (fun r hr => keeps_mono_of_narrows h r hr)).length_le

/-- Witness for claim C9 at a concrete narrowing of the race selection. -/
theorem apply_filters_narrow_mono_witness :
    (apply_filters [rowRaceA] ⟨none, some [Json.str "A"], none, none⟩).length ≤
      (apply_filters [rowRaceA]
        ⟨none, some [Json.str "A", Json.str "B"], none, none⟩).length :=
  apply_filters_narrow_mono [rowRaceA]
    ⟨none, some [Json.str "A"], none, none⟩
    ⟨none, some [Json.str "A", Json.str "B"], none, none⟩
    (Or.inr (Or.inr (Or.inl ⟨[Json.str "A"], [Json.str "A", Json.str "B"],
      rfl, rfl, by decide, by decide, rfl, rfl, rfl⟩)))

/-- Counterexample to claim C9 as stated: the empty race selection is a
subset of `["B"]`, yet filtering with it keeps strictly more rows, because
the source treats an empty selection as "no restriction". -/
theorem apply_filters_subset_not_mono :
    (apply_filters [rowRaceA] ⟨none, some [], none, none⟩).length = 1 ∧
      (apply_filters [rowRaceA] ⟨none, some [Json.str "B"], none, none⟩).length
        = 0 := by
  decide

/-- Claim C10: a criteria mapping containing none of the four filter keys
leaves the row list unchanged, so rows with absent position are retained at
this boundary. -/
theorem apply_filters_no_keys (df : List Row) :
    apply_filters df ⟨none, none, none, none⟩ = df := rfl

lemma posLE_total (p q : Option Nat) : posLE p q = true ∨ posLE q p = true := by
  rcases p with _ | m
  · rcases q with _ | n
    · simp [posLE]
    · simp [posLE]
  · rcases q with _ | n
    · simp [posLE]
    · simp only [posLE, decide_eq_true_eq]
      omega

lemma posLE_trans (p q r : Option Nat) :
    posLE p q = true → posLE q r = true → posLE p r = true := by
  intro h1 h2
  rcases p with _ | m
  · rcases q with _ | n
    · exact h2
    · exact absurd h1 (by simp [posLE])
  · rcases q with _ | n
    · rcases r with _ | k
      · simp [posLE]
      · exact absurd h2 (by simp [posLE])
    · rcases r with _ | k
      · simp [posLE]
      · simp only [posLE, decide_eq_true_eq] at h1 h2 ⊢
        omega

lemma rowLE_total (a b : Row) : rowLE a b = true ∨ rowLE b a = true := by
  unfold rowLE
  rcases lt_trichotomy a.round b.round with h | h | h
  · left
    simp [h]
  · rcases posLE_total a.position b.position with hp | hp
    · left
      simp [h, hp]
    · right
      simp [h, hp]
  · right
    simp [h]

lemma rowLE_trans (a b c : Row) :
    rowLE a b = true → rowLE b c = true → rowLE a c = true := by
  unfold rowLE
  intro h1 h2
  simp only [Bool.or_eq_true, Bool.and_eq_true, beq_iff_eq,
    decide_eq_true_eq] at h1 h2 ⊢
  rcases h1 with h1 | ⟨h1, h1p⟩ <;> rcases h2 with h2 | ⟨h2, h2p⟩
  · left; omega
  · left; omega
  · left; omega
  · exact Or.inr ⟨by omega, posLE_trans _ _ _ h1p h2p⟩

instance rowLE_isTotal : IsTotal Row (fun a b => rowLE a b = true) :=
  ⟨rowLE_total⟩

instance rowLE_isTrans : IsTrans Row (fun a b => rowLE a b = true) :=
  ⟨rowLE_trans⟩

lemma pairwise_claimOrder_sortRows (l : List Row) :
    List.Pairwise claimOrder (sortRows l) := by
  have hs := List.sorted_insertionSort (fun a b => rowLE a b = true) l
  refine hs.imp ?_
  intro a b hab
  simp only [rowLE, Bool.or_eq_true, Bool.and_eq_true, beq_iff_eq,
    decide_eq_true_eq] at hab
  rcases hab with h | ⟨h, hp⟩
  · exact Or.inl h
  · refine Or.inr ⟨h, ?_⟩
    rcases hq : a.position with _ | p <;> rcases hr : b.position with _ | q
    · exact Or.inl rfl
    · rw [hq, hr] at hp
      exact absurd hp (by simp [posLE])
    · exact Or.inl rfl
    · rw [hq, hr] at hp
      simp only [posLE, decide_eq_true_eq] at hp
      exact Or.inr ⟨p, q, rfl, rfl, hp⟩

/-- Claim C7: whenever `get_season_results` returns normally, the returned
rows are ordered primarily by round ascending and secondarily by position
ascending, with every absent-position row placed after all present-position
rows of the same round. -/
theorem season_results_sorted (fetch : Nat → Option Json) (fuel : Nat)
    (rows : List Row)
    (h : get_season_results fetch fuel = some (.ok rows)) :
    List.Pairwise claimOrder rows := by
  unfold get_season_results at h
  rcases hl : seasonLoop fetch fuel 0 [] with _ | ⟨res, n⟩ <;> rw [hl] at h
  · exact absurd h (by simp)
  · rcases res with e | allResults
    · exact absurd h (by simp)
    · by_cases he : allResults.isEmpty
      · simp only [he, if_true] at h
        obtain rfl : ([] : List Row) = rows := by
          injection h with h'
          injection h'
        exact List.Pairwise.nil
      · by_cases hd : allResults.all (fun r => isoDate r.date)
        · simp only [he, hd, if_true, if_false, Bool.false_eq_true] at h
          obtain rfl : sortRows allResults = rows := by
            injection h with h'
            injection h'
          exact pairwise_claimOrder_sortRows allResults
        · simp only [he, hd, if_false, Bool.false_eq_true] at h
          exact absurd h (by simp)

/-- Witness for claim C7: a one-page season with a fifth place and a DNF
comes back with the DNF row after the classified row. -/
theorem season_results_sorted_witness :
    List.Pairwise claimOrder [rowFifth, rowDnf] :=
  season_results_sorted (fun _ => some pageTwoResults) 1 [rowFifth, rowDnf]
    (by decide)

lemma seasonLoop_prefix (fetch : Nat → Option Json) :
    ∀ (k fuel offset : Nat) (acc : List Row),
      (∀ i, i < k → ∃ d rows total, fetch (offset + 100 * i) = some d ∧
        processPage d = .ok (some (rows, total)) ∧
        ((offset + 100 * i : Nat) : Int) + 100 < total) →
      (fetch (offset + 100 * k) = none ∨
        ∃ d, fetch (offset + 100 * k) = some d ∧ processPage d = .ok none) →
      k < fuel →
      seasonLoop fetch fuel offset acc =
        some (.ok (acc ++ pagesRows fetch offset k), k + 1) := by
  intro k
  induction k with
  | zero =>
    intro fuel offset acc hsucc hfail hfuel
    obtain ⟨fuel', rfl⟩ : ∃ f', fuel = f' + 1 := ⟨fuel - 1, by omega⟩
    rcases hfail with hf | ⟨d, hd, hpd⟩
    · simp only [Nat.mul_zero, Nat.add_zero] at hf
      simp [seasonLoop, hf, pagesRows]
    · simp only [Nat.mul_zero, Nat.add_zero] at hd
      simp [seasonLoop, hd, hpd, pagesRows]
  | succ k ih =>
    intro fuel offset acc hsucc hfail hfuel
    obtain ⟨fuel', rfl⟩ : ∃ f', fuel = f' + 1 := ⟨fuel - 1, by omega⟩
    obtain ⟨d, rows, total, hd, hpd, ht⟩ := hsucc 0 (by omega)
    simp only [Nat.mul_zero, Nat.add_zero] at hd ht
    have hsucc' : ∀ i, i < k →
        ∃ d rows total, fetch (offset + 100 + 100 * i) = some d ∧
          processPage d = .ok (some (rows, total)) ∧
          ((offset + 100 + 100 * i : Nat) : Int) + 100 < total := by
      intro i hi
      obtain ⟨d', rows', total', h1, h2, h3⟩ := hsucc (i + 1) (by omega)
      have harith : offset + 100 * (i + 1) = offset + 100 + 100 * i := by ring
      rw [harith] at h1 h3
      exact ⟨d', rows', total', h1, h2, h3⟩
    have hfail' : fetch (offset + 100 + 100 * k) = none ∨
        ∃ d, fetch (offset + 100 + 100 * k) = some d ∧
          processPage d = .ok none := by
      have harith : offset + 100 * (k + 1) = offset + 100 + 100 * k := by ring
      rw [harith] at hfail
      exact hfail
    have ih' := ih fuel' (offset + 100) (acc ++ rows) hsucc' hfail' (by omega)
    have hnot : ¬ ((offset : Int) + 100 ≥ total) := by omega
    have hp : pagesRows fetch offset (k + 1) =
        rows ++ pagesRows fetch (offset + 100) k := by
      simp [pagesRows, hd, hpd]
    rw [hp]
    simp only [seasonLoop, hd, hpd, if_neg hnot, ih', List.append_assoc]

/-- Claim C4: when the first `k` page fetches succeed (each well-shaped with
a declared total beyond the next offset) and the fetch at offset `100 * k`
fails (transport failure, or a structure on which the loop's guard breaks),
`get_season_results` returns exactly the rows accumulated from the first
`k` pages (sorted), not an exception and — when those pages contributed any
rows — not an empty sequence. -/
theorem season_results_truncated (fetch : Nat → Option Json) (k fuel : Nat)
    (hsucc : ∀ i, i < k → ∃ d rows total, fetch (100 * i) = some d ∧
      processPage d = .ok (some (rows, total)) ∧
      ((100 * i : Nat) : Int) + 100 < total)
    (hfail : fetch (100 * k) = none ∨
      ∃ d, fetch (100 * k) = some d ∧ processPage d = .ok none)
    (hfuel : k < fuel)
    (hdates : ∀ r ∈ pagesRows fetch 0 k, isoDate r.date = true) :
    get_season_results fetch fuel =
        some (.ok (sortRows (pagesRows fetch 0 k))) ∧
      (sortRows (pagesRows fetch 0 k)).Perm (pagesRows fetch 0 k) ∧
      (pagesRows fetch 0 k ≠ [] → sortRows (pagesRows fetch 0 k) ≠ []) := by
  have hs0 : ∀ i, i < k → ∃ d rows total, fetch (0 + 100 * i) = some d ∧
      processPage d = .ok (some (rows, total)) ∧
      ((0 + 100 * i : Nat) : Int) + 100 < total := by
    intro i hi
    simpa using hsucc i hi
  have hf0 : fetch (0 + 100 * k) = none ∨
      ∃ d, fetch (0 + 100 * k) = some d ∧ processPage d = .ok none := by
    simpa using hfail
  have hloop := seasonLoop_prefix fetch k fuel 0 [] hs0 hf0 hfuel
  rw [List.nil_append] at hloop
  have hperm : (sortRows (pagesRows fetch 0 k)).Perm (pagesRows fetch 0 k) :=
    List.perm_insertionSort _ _
  refine ⟨?_, hperm, ?_⟩
  · unfold get_season_results
    rw [hloop]
    by_cases he : (pagesRows fetch 0 k).isEmpty
    · have hnil : pagesRows fetch 0 k = [] := by
        simpa [List.isEmpty_iff] using he
      simp [he, hnil, sortRows]
    · have hall : (pagesRows fetch 0 k).all (fun r => isoDate r.date) = true := by
        rw [List.all_eq_true]
        intro r hr
        exact hdates r hr
      simp [he, hall]
  · intro hne hcon
    exact hne ((hcon ▸ hperm).symm.eq_nil)

/-- Witness for claim C4 with two good pages and a transport failure on the
third: the single accumulated row comes back. -/
theorem season_results_truncated_witness :
    get_season_results fetchC4 3 = some (.ok (sortRows (pagesRows fetchC4 0 2))) :=
  (season_results_truncated fetchC4 2 3
    (by
      intro i hi
      interval_cases i
      · exact ⟨pageC4first, [rowOneResult], 500, rfl, by decide, by decide⟩
      · exact ⟨pageC4second, [], 500, rfl, by decide, by decide⟩)
    (Or.inl (by decide))
    (by omega)
    (by decide)).1

lemma seasonLoop_count (fetch : Nat → Option Json) :
    ∀ (k fuel offset : Nat) (acc : List Row),
      (∀ i, i ≤ k → ∃ d rows total, fetch (offset + 100 * i) = some d ∧
        processPage d = .ok (some (rows, total)) ∧
        (i < k → ((offset + 100 * i : Nat) : Int) + 100 < total) ∧
        (i = k → ((offset + 100 * i : Nat) : Int) + 100 ≥ total)) →
      k < fuel →
      ∃ rows, seasonLoop fetch fuel offset acc = some (.ok rows, k + 1) := by
  intro k
  induction k with
  | zero =>
    intro fuel offset acc hpages hfuel
    obtain ⟨fuel', rfl⟩ : ∃ f', fuel = f' + 1 := ⟨fuel - 1, by omega⟩
    obtain ⟨d, rows, total, hd, hpd, _, hstop⟩ := hpages 0 (le_refl 0)
    simp only [Nat.mul_zero, Nat.add_zero] at hd hstop
    have hge : ((offset : Int) + 100 ≥ total) := hstop (by trivial)
    refine ⟨acc ++ rows, ?_⟩
    simp [seasonLoop, hd, hpd, if_pos hge]
  | succ k ih =>
    intro fuel offset acc hpages hfuel
    obtain ⟨fuel', rfl⟩ : ∃ f', fuel = f' + 1 := ⟨fuel - 1, by omega⟩
    obtain ⟨d, rows, total, hd, hpd, hcont, _⟩ := hpages 0 (by omega)
    simp only [Nat.mul_zero, Nat.add_zero] at hd hcont
    have hlt : ((offset : Int) + 100 < total) := hcont (by omega)
    have hpages' : ∀ i, i ≤ k →
        ∃ d rows total, fetch (offset + 100 + 100 * i) = some d ∧
          processPage d = .ok (some (rows, total)) ∧
          (i < k → ((offset + 100 + 100 * i : Nat) : Int) + 100 < total) ∧
          (i = k → ((offset + 100 + 100 * i : Nat) : Int) + 100 ≥ total) := by
      intro i hi
      obtain ⟨d', rows', total', h1, h2, h3, h4⟩ := hpages (i + 1) (by omega)
      have harith : offset + 100 * (i + 1) = offset + 100 + 100 * i := by ring
      rw [harith] at h1 h3 h4
      exact ⟨d', rows', total', h1, h2, fun hik => h3 (by omega),
        fun hik => h4 (by omega)⟩
    obtain ⟨rows', hrows'⟩ := ih fuel' (offset + 100) (acc ++ rows) hpages'
      (by omega)
    refine ⟨rows', ?_⟩
    have hnot : ¬ ((offset : Int) + 100 ≥ total) := by omega
    simp only [seasonLoop, hd, hpd, if_neg hnot, hrows']

/-- Claim C3 (as amended): for a declared total `T ≥ 1` and page size 100,
when every fetched page is well-formed, declares total `T` and has a
non-empty race list, the pagination loop issues exactly
`⌈T / 100⌉ = (T + 99) / 100` fetch calls.  (For `T = 0` the code still
issues one call; see the counterexample.) -/
theorem season_fetch_calls (fetch : Nat → Option Json) (T N fuel : Nat)
    (hT : 1 ≤ T) (hN : N = (T + 99) / 100) (hfuel : N ≤ fuel)
    (hpages : ∀ i, i < N → ∃ d rows, fetch (100 * i) = some d ∧
      processPage d = .ok (some (rows, (T : Int)))) :
    seasonFetchCalls fetch fuel = some N := by
  obtain ⟨N', rfl⟩ : ∃ n, N = n + 1 := ⟨N - 1, by omega⟩
  have hcount : ∀ i, i ≤ N' → ∃ d rows total,
      fetch (0 + 100 * i) = some d ∧
      processPage d = .ok (some (rows, total)) ∧
      (i < N' → ((0 + 100 * i : Nat) : Int) + 100 < total) ∧
      (i = N' → ((0 + 100 * i : Nat) : Int) + 100 ≥ total) := by
    intro i hi
    obtain ⟨d, rows, h1, h2⟩ := hpages i (by omega)
    refine ⟨d, rows, (T : Int), by simpa using h1, h2, ?_, ?_⟩
    · intro hiN
      have : 100 * (i + 1) < T := by omega
      push_cast
      omega
    · intro hiN
      subst hiN
      have : T ≤ 100 * (i + 1) := by omega
      push_cast
      omega
  obtain ⟨rows, hrows⟩ := seasonLoop_count fetch N' fuel 0 [] hcount
    (by omega)
  unfold seasonFetchCalls
  rw [hrows]
  rfl

/-- Witness for claim C3: a one-page season with declared total 1 costs
exactly one fetch call. -/
theorem season_fetch_calls_witness :
    seasonFetchCalls (fun _ => some pageNoResults) 1 = some 1 :=
  season_fetch_calls (fun _ => some pageNoResults) 1 1 1 (by omega)
    (by norm_num) (by omega)
    (by
      intro i hi
      have h0 : i = 0 := by omega
      subst h0
      exact ⟨pageNoResults, [], rfl, by decide⟩)

/-- Counterexample to claim C3 as stated: a season whose API-declared total
is 0 (empty race list, `total = "0"`) still costs one fetch call, while
`ceil(0 / 100) = 0`; the loop always issues its first fetch before it can
observe that the season is empty. -/
theorem season_fetch_calls_total_zero :
    seasonFetchCalls (fun _ => some pageEmptySeason) 1 = some 1 ∧
      (0 + 99) / 100 ≠ 1 := by
  constructor
  · decide
  · decide

lemma lookupLast_contains {kvs : List (String × Json)} {k : String} {v : Json}
    (h : lookupLast kvs k = some v) : (kvs.map Prod.fst).contains k = true := by
  induction kvs generalizing v with
  | nil => simp [lookupLast] at h
  | cons kv rest ih =>
    obtain ⟨k', v0⟩ := kv
    simp only [lookupLast] at h
    rcases hrec : lookupLast rest k with _ | v'
    · rw [hrec] at h
      by_cases hk : k' = k
      · simp [hk]
      · rw [if_neg hk] at h
        exact absurd h (by simp)
    · rw [hrec] at h
      have hre := ih hrec
      simp at hre ⊢
      exact Or.inr hre

lemma lookupLast_truthy {kvs : List (String × Json)} {k : String} {v : Json}
    (h : lookupLast kvs k = some v) : (Json.obj kvs).truthy = true := by
  rcases kvs with _ | ⟨kv, rest⟩
  · simp [lookupLast] at h
  · simp [Json.truthy]

lemma buildResultRow_ok (roundNum : Int) (raceName raceDate result : Json)
    (h : wellShapedResult result = true) :
    ∃ row, buildResultRow roundNum raceName raceDate result = .ok row ∧
      row.date = raceDate := by
  rcases result with s | l | kvs
  · exact absurd h (by simp [wellShapedResult])
  · exact absurd h (by simp [wellShapedResult])
  · simp only [wellShapedResult, Bool.and_eq_true] at h
    obtain ⟨⟨hpos, hdrv⟩, hcons⟩ := h
    obtain ⟨po, hpoE⟩ : ∃ po, extractPosition (.obj kvs) = .ok po := by
      rcases hp : lookupLast kvs "position" with _ | (s' | l' | kvs')
      · refine ⟨if pyIsDigit "DNF" then some (digitsToNat "DNF") else none, ?_⟩
        simp [extractPosition, pyGet, hp]
      · refine ⟨if pyIsDigit s' then some (digitsToNat s') else none, ?_⟩
        simp [extractPosition, pyGet, hp]
      · rw [hp] at hpos
        exact absurd hpos (by simp)
      · rw [hp] at hpos
        exact absurd hpos (by simp)
    obtain ⟨q, hq⟩ : ∃ q, extractPoints (.obj kvs) = .ok q := ⟨_, rfl⟩
    rcases hd : lookupLast kvs "Driver" with _ | (ds | dl | dkvs)
    · rw [hd] at hdrv
      exact absurd hdrv (by simp)
    · rw [hd] at hdrv
      exact absurd hdrv (by simp)
    · rw [hd] at hdrv
      exact absurd hdrv (by simp)
    rw [hd] at hdrv
    simp only [Bool.and_eq_true, Option.isSome_iff_exists] at hdrv
    obtain ⟨⟨gv, hgv⟩, ⟨fv, hfv⟩⟩ := hdrv
    rcases hc : lookupLast kvs "Constructor" with _ | (cs | cl | ckvs)
    · rw [hc] at hcons
      exact absurd hcons (by simp)
    · rw [hc] at hcons
      exact absurd hcons (by simp)
    · rw [hc] at hcons
      exact absurd hcons (by simp)
    rw [hc] at hcons
    simp only [Option.isSome_iff_exists] at hcons
    obtain ⟨nv, hnv⟩ := hcons
    have hrow : buildResultRow roundNum raceName raceDate (.obj kvs) =
        .ok { round := roundNum, race := raceName, date := raceDate,
              driver := pyStr gv ++ " " ++ pyStr fv, constructor := nv,
              position := po, points := q,
              status := (lookupLast kvs "status").getD (.str "") } := by
      simp only [buildResultRow, hpoE, hq, Json.index, hd, hgv, hfv, hc, hnv,
        pyGet]
    exact ⟨_, hrow, rfl⟩

lemma resultsRows_ok (roundNum : Int) (raceName raceDate : Json) :
    ∀ results : List Json, (∀ x ∈ results, wellShapedResult x = true) →
      ∃ rows, resultsRows roundNum raceName raceDate results = .ok rows ∧
        ∀ r ∈ rows, r.date = raceDate := by
  intro results
  induction results with
  | nil => exact fun _ => ⟨[], rfl, by simp⟩
  | cons x xs ih =>
    intro hall
    obtain ⟨row, hrow, hdate⟩ :=
      buildResultRow_ok roundNum raceName raceDate x (hall x (by simp))
    obtain ⟨rows, hrows, hdates⟩ := ih (fun y hy => hall y (by simp [hy]))
    refine ⟨row :: rows, ?_, ?_⟩
    · simp only [resultsRows, hrow, hrows]
    · intro r hr
      rcases List.mem_cons.mp hr with rfl | hr
      · exact hdate
      · exact hdates r hr

lemma processRace_ok (race : Json) (h : wellShapedRace race = true) :
    ∃ rows, processRace race = .ok rows ∧
      ∀ r ∈ rows, isoDate r.date = true := by
  rcases race with s | l | kvs
  · exact absurd h (by simp [wellShapedRace])
  · exact absurd h (by simp [wellShapedRace])
  · simp only [wellShapedRace, Bool.and_eq_true] at h
    obtain ⟨⟨⟨hname, hround⟩, hdate⟩, hres⟩ := h
    obtain ⟨nm, hnm⟩ := Option.isSome_iff_exists.mp hname
    rcases hr : lookupLast kvs "round" with _ | (rs | rl | rkvs)
    · rw [hr] at hround
      exact absurd hround (by simp)
    case some.arr =>
      rw [hr] at hround
      exact absurd hround (by simp)
    case some.obj =>
      rw [hr] at hround
      exact absurd hround (by simp)
    case some.str =>
      rw [hr] at hround
      obtain ⟨rn, hrn⟩ := Option.isSome_iff_exists.mp hround
      rcases hd : lookupLast kvs "date" with _ | dv
      · rw [hd] at hdate
        exact absurd hdate (by simp)
      rw [hd] at hdate
      rcases hrs : lookupLast kvs "Results" with _ | rv
      · rw [hrs] at hres
        exact absurd hres (by simp)
      rw [hrs] at hres
      obtain ⟨rows, hrows, hdates⟩ := resultsRows_ok rn nm dv (pyIter rv)
        (fun x hx => by
          have := List.all_eq_true.mp hres x hx
          simpa using this)
      refine ⟨rows, ?_, ?_⟩
      · simp only [processRace, Json.index, hnm, hr, pyIntJson, hrn, hd, hrs,
          hrows]
      · intro r hrr
        rw [hdates r hrr]
        exact hdate

lemma racesRows_ok :
    ∀ races : List Json, (∀ x ∈ races, wellShapedRace x = true) →
      ∃ rows, racesRows races = .ok rows ∧
        ∀ r ∈ rows, isoDate r.date = true := by
  intro races
  induction races with
  | nil => exact fun _ => ⟨[], rfl, by simp⟩
  | cons x xs ih =>
    intro hall
    obtain ⟨rs, hrs, hrsdates⟩ := processRace_ok x (hall x (by simp))
    obtain ⟨rows, hrows, hdates⟩ := ih (fun y hy => hall y (by simp [hy]))
    refine ⟨rs ++ rows, ?_, ?_⟩
    · simp only [racesRows, hrs, hrows]
    · intro r hr
      rcases List.mem_append.mp hr with hr | hr
      · exact hrsdates r hr
      · exact hdates r hr

lemma processPage_guard (d : Json) (h : guardBreaks d = true) :
    processPage d = .ok none := by
  simp only [guardBreaks, Bool.or_eq_true, Bool.not_eq_true'] at h
  unfold processPage
  rcases h with (h | h) | h
  · rw [if_pos h]
  · by_cases ht : d.truthy = false
    · rw [if_pos ht]
    · rw [if_neg ht, if_pos h]
  · rcases d with s | l | kvs
    · exact absurd h (by simp)
    · exact absurd h (by simp)
    · rcases hm : lookupLast kvs "MRData" with _ | mr
      · simp [hm] at h
      · simp only [hm] at h
        have hcontr : pyContains mr "RaceTable" = false := by simpa using h
        by_cases ht : (Json.obj kvs).truthy = false
        · rw [if_pos ht]
        · rw [if_neg ht]
          by_cases hc : pyContains (Json.obj kvs) "MRData" = false
          · rw [if_pos hc]
          · rw [if_neg hc]
            simp only [Json.index, hm]
            rw [if_pos hcontr]

lemma processPage_shaped (d : Json) (h : wellShapedPage d = true) :
    processPage d = .ok none ∨
      ∃ rows total, processPage d = .ok (some (rows, total)) ∧
        ∀ r ∈ rows, isoDate r.date = true := by
  rcases d with s | l | kvs
  · exact absurd h (by simp [wellShapedPage])
  · exact absurd h (by simp [wellShapedPage])
  · simp only [wellShapedPage] at h
    rcases hm : lookupLast kvs "MRData" with _ | (ms | ml | mkvs)
    · rw [hm] at h
      exact absurd h (by simp)
    · rw [hm] at h
      exact absurd h (by simp)
    · rw [hm] at h
      exact absurd h (by simp)
    rw [hm] at h
    simp only [Bool.and_eq_true] at h
    obtain ⟨hrt, htot⟩ := h
    rcases hrtv : lookupLast mkvs "RaceTable" with _ | (rts | rtl | rtkvs)
    · simp [hrtv] at hrt
    · simp [hrtv] at hrt
    · simp [hrtv] at hrt
    simp only [hrtv] at hrt
    rcases hrc : lookupLast rtkvs "Races" with _ | races
    · simp [hrc] at hrt
    simp only [hrc] at hrt
    rcases htv : lookupLast mkvs "total" with _ | (ts | tl | tkvs)
    · simp [htv] at htot
    case some.arr => simp [htv] at htot
    case some.obj => simp [htv] at htot
    case some.str =>
    simp only [htv] at htot
    obtain ⟨tn, htn⟩ := Option.isSome_iff_exists.mp htot
    have htruthy : (Json.obj kvs).truthy = true := lookupLast_truthy hm
    have hcont : pyContains (Json.obj kvs) "MRData" = true := by
      simpa [pyContains] using lookupLast_contains hm
    have hcontRT : pyContains (Json.obj mkvs) "RaceTable" = true := by
      simpa [pyContains] using lookupLast_contains hrtv
    unfold processPage
    rw [if_neg (by simp [htruthy]), if_neg (by simp [hcont])]
    simp only [Json.index, hm]
    rw [if_neg (by simp [hcontRT])]
    simp only [hrtv, hrc]
    by_cases hft : races.truthy = false
    · rw [if_pos hft]
      exact Or.inl rfl
    · rw [if_neg hft]
      obtain ⟨rows, hrows, hdates⟩ := racesRows_ok (pyIter races)
        (fun x hx => List.all_eq_true.mp hrt x hx)
      rw [hrows]
      simp only [htv, pyIntJson, htn]
      exact Or.inr ⟨rows, tn, rfl, hdates⟩

lemma processPage_good (d : Json) (h : goodResp d = true) :
    processPage d = .ok none ∨
      ∃ rows total, processPage d = .ok (some (rows, total)) ∧
        ∀ r ∈ rows, isoDate r.date = true := by
  simp only [goodResp, Bool.or_eq_true] at h
  rcases h with h | h
  · exact Or.inl (processPage_guard d h)
  · exact processPage_shaped d h

lemma seasonLoop_no_error (fetch : Nat → Option Json)
    (hgood : ∀ off d, fetch off = some d → goodResp d = true) :
    ∀ (fuel offset : Nat) (acc : List Row),
      (∀ r ∈ acc, isoDate r.date = true) →
      seasonLoop fetch fuel offset acc = none ∨
        ∃ rows n, seasonLoop fetch fuel offset acc = some (.ok rows, n) ∧
          ∀ r ∈ rows, isoDate r.date = true := by
  intro fuel
  induction fuel with
  | zero =>
    intro offset acc _
    exact Or.inl rfl
  | succ fuel ih =>
    intro offset acc hacc
    rcases hf : fetch offset with _ | d
    · exact Or.inr ⟨acc, 1, by simp [seasonLoop, hf], hacc⟩
    · rcases processPage_good d (hgood offset d hf) with hnone |
        ⟨rows, total, hsome, hrdates⟩
      · exact Or.inr ⟨acc, 1, by simp [seasonLoop, hf, hnone], hacc⟩
      · have hboth : ∀ r ∈ acc ++ rows, isoDate r.date = true := by
          intro r hr
          rcases List.mem_append.mp hr with hr | hr
          · exact hacc r hr
          · exact hrdates r hr
        by_cases hstop : ((offset : Int) + 100 ≥ total)
        · exact Or.inr ⟨acc ++ rows, 1,
            by simp [seasonLoop, hf, hsome, if_pos hstop], hboth⟩
        · rcases ih (offset + 100) (acc ++ rows) hboth with hrec |
            ⟨rows', n', hrec, hrec_dates⟩
          · exact Or.inl (by simp [seasonLoop, hf, hsome, if_neg hstop, hrec])
          · exact Or.inr ⟨rows', n' + 1,
              by simp [seasonLoop, hf, hsome, if_neg hstop, hrec], hrec_dates⟩

/-- Claim C1 (as amended): `get_season_results` raises no exception as long
as every fetched response either fails the loop's guard (falsy, missing
`MRData`, or missing `RaceTable` — these terminate pagination) or carries
the fully well-shaped nested structure; but a response missing deeper
fields such as `Races` does raise (see the counterexample). -/
theorem season_results_never_raises (fetch : Nat → Option Json) (fuel : Nat)
    (hgood : ∀ off d, fetch off = some d → goodResp d = true) :
    ∀ e, get_season_results fetch fuel ≠ some (.error e) := by
  intro e hcon
  unfold get_season_results at hcon
  rcases seasonLoop_no_error fetch hgood fuel 0 [] (by simp) with hl |
    ⟨rows, n, hl, hdates⟩
  · rw [hl] at hcon
    exact absurd hcon (by simp)
  · rw [hl] at hcon
    by_cases he : rows.isEmpty
    · simp [he] at hcon
    · have hall : rows.all (fun r => isoDate r.date) = true :=
        List.all_eq_true.mpr (fun r hr => hdates r hr)
      simp [he, hall] at hcon

/-- Witness for claim C1 (amended) on a fetcher that always returns a fully
well-shaped page. -/
theorem season_results_never_raises_witness :
    get_season_results (fun _ => some pageOneResult) 1 ≠
      some (.error (.keyError "Races")) :=
  season_results_never_raises (fun _ => some pageOneResult) 1
    (by
      intro off d hd
      injection hd with h
      rw [← h]
      decide)
    (.keyError "Races")

/-- Counterexample to claim C1 as stated: a response whose `RaceTable` dict
lacks the `Races` key makes `get_season_results` propagate
`KeyError('Races')` instead of terminating pagination. -/
theorem season_results_raises_on_missing_races :
    get_season_results (fun _ => some pageNoRaces) 1 =
      some (.error (.keyError "Races")) := by
  decide

/-- Claim C5: the built row's position is the parsed integer exactly when
the raw position string is composed entirely of decimal digits and non-empty
(`str.isdigit`), and absent otherwise; in particular
`["1", "2", "DNF", "DSQ", "11"]` produce `[1, 2, absent, absent, 11]`. -/
theorem position_parsing :
    (∀ s : String, (buildResultRow 1 (.str "R") (.str "2024-01-07")
        (mkPosResult s)).map Row.position =
      .ok (if pyIsDigit s then some (digitsToNat s) else none)) ∧
    (["1", "2", "DNF", "DSQ", "11"].map (fun s =>
        (buildResultRow 1 (.str "R") (.str "2024-01-07")
          (mkPosResult s)).map Row.position)) =
      [.ok (some 1), .ok (some 2), .ok none, .ok none, .ok (some 11)] := by
  constructor
  · intro s
    simp [buildResultRow, mkPosResult, extractPosition, extractPoints, pyGet,
      lookupLast, Json.index, Except.map]
  · decide

/-- Claim C6: the built row's points is the raw value parsed as an exact
decimal number, defaulting to 0 when the key is absent or the value
unparseable, never propagating a parse error; in particular
`["25", "", "abc", "18.5"]` produce `[25.0, 0.0, 0.0, 18.5]`. -/
theorem points_default :
    (∀ s : String, (buildResultRow 1 (.str "R") (.str "2024-01-07")
        (mkPtsResult s)).map Row.points =
      .ok ((parsePyFloat? s).getD 0)) ∧
    ((buildResultRow 1 (.str "R") (.str "2024-01-07") mkNoPtsResult).map
        Row.points = .ok 0) ∧
    (["25", "", "abc", "18.5"].map (fun s =>
        (buildResultRow 1 (.str "R") (.str "2024-01-07")
          (mkPtsResult s)).map Row.points)) =
      [.ok 25, .ok 0, .ok 0, .ok (18.5 : ℚ)] := by
  refine ⟨?_, ?_, ?_⟩
  · intro s
    rcases hq : parsePyFloat? s with _ | q <;>
      simp [buildResultRow, mkPtsResult, extractPosition, extractPoints,
        pyGet, lookupLast, Json.index, Except.map, hq]
  · decide
  · have h185 : (18.5 : ℚ) = mkRat 37 2 := by
      norm_num [Rat.mkRat_eq_div]
    rw [h185]
    decide
